import Mathlib

/-!
Shallow embedding of the versioned-item lifecycle and release-workflow core of
the PLM backend (`src/server.js`).  SQLite tables become lists of records, the
autoincrement rowid counters become explicit sequence fields, `CURRENT_TIMESTAMP`
becomes an explicit `now : Nat` argument supplied per call, and every route
handler becomes a pure function `DB → args → Except ApiErr α × DB` returning the
HTTP status / message it would send together with the post-state.  The embedding
is single-threaded: each call runs to completion, matching the spec's §5 model.
SQLite foreign keys are not enabled by the source (no `PRAGMA foreign_keys`),
so inserts never perform referential checks.
-/

namespace PLM

/-- The JSON error payload a handler sends: HTTP status code plus message. -/
structure ApiErr where
  status : Nat
  error : String
deriving DecidableEq, Repr

/-- Row of the `parts` table (columns relevant to the lifecycle core). -/
structure Part where
  id : Nat
  part_code : String
  name : String
  description : Option String
  material : Option String
  vendor : Option String
  criticality : String
  lifecycle_state : String
  tags : Option String
  owner_id : Nat
  created_at : Nat
deriving DecidableEq, Repr

/-- Row of the `part_versions` table. -/
structure PartVersion where
  id : Nat
  part_id : Nat
  version_label : String
  status : String
  storage_path : Option String
  working_path : Option String
  change_notes : Option String
  frozen_by : Option Nat
  frozen_at : Option Nat
  created_at : Nat
deriving DecidableEq, Repr

/-- Row of the `assemblies` table. -/
structure Assembly where
  id : Nat
  assembly_code : String
  name : String
  description : Option String
  criticality : String
  tags : Option String
  owner_id : Nat
  created_at : Nat
deriving DecidableEq, Repr

/-- Row of the `assembly_versions` table. -/
structure AssemblyVersion where
  id : Nat
  assembly_id : Nat
  version_label : String
  status : String
  storage_path : Option String
  working_path : Option String
  frozen_by : Option Nat
  frozen_at : Option Nat
  created_at : Nat
deriving DecidableEq, Repr

/-- Row of the `assembly_parts` join table (one Composition Edge). -/
structure AssemblyPart where
  id : Nat
  assembly_version_id : Nat
  part_version_id : Nat
deriving DecidableEq, Repr

/-- Row of the `part_permissions` table. -/
structure PartPermission where
  part_id : Nat
  user_id : Nat
  can_edit : Bool
deriving DecidableEq, Repr

/-- Row of the `edit_requests` table. -/
structure EditRequest where
  id : Nat
  part_id : Nat
  requester_id : Nat
  status : String
  reason : Option String
  decided_by : Option Nat
  decided_at : Option Nat
  created_at : Nat
deriving DecidableEq, Repr

/-- Row of the `release_requests` table. -/
structure ReleaseRequest where
  id : Nat
  item_type : String
  item_version_id : Nat
  requester_id : Nat
  status : String
  reason : Option String
  decided_by : Option Nat
  decided_at : Option Nat
  created_at : Nat
deriving DecidableEq, Repr

/-- The persistent store: one list per table plus the AUTOINCREMENT sequences
(`xSeq` is the last id issued for table `x`; the next insert uses `xSeq + 1`). -/
structure DB where
  parts : List Part
  part_versions : List PartVersion
  assemblies : List Assembly
  assembly_versions : List AssemblyVersion
  assembly_parts : List AssemblyPart
  part_permissions : List PartPermission
  edit_requests : List EditRequest
  release_requests : List ReleaseRequest
  partSeq : Nat
  pvSeq : Nat
  asmSeq : Nat
  avSeq : Nat
  apSeq : Nat
  erSeq : Nat
  rrSeq : Nat
deriving DecidableEq, Repr

/-- The empty database. -/
def DB.empty : DB :=
  ⟨[], [], [], [], [], [], [], [], 0, 0, 0, 0, 0, 0, 0⟩

/-- `function isApproverOrAdmin(role)` from `server.js`. -/
def isApproverOrAdmin (role : String) : Bool :=
  role == "approver" || role == "admin"

/-- `function canEditPart(userId, role, partId, cb)` from `server.js`:
admin always; otherwise the part must exist and the caller be its owner or
hold a `can_edit` permission grant. -/
def canEditPart (db : DB) (userId : Nat) (role : String) (partId : Nat) : Bool :=
  if role == "admin" then true
  else
    match db.parts.find? (fun p => p.id == partId) with
    | none => false
    | some p =>
      if p.owner_id == userId then true
      else
        match db.part_permissions.find? (fun pp => pp.part_id == partId && pp.user_id == userId) with
        | none => false
        | some perm => perm.can_edit

/-- `SELECT * FROM part_versions WHERE part_id = ? ORDER BY created_at DESC LIMIT 1`:
the version of the part with maximal `created_at` (later inserts win ties, as
rows are stored in insertion order). -/
def getLatestPartVersion (db : DB) (partId : Nat) : Option PartVersion :=
  (db.part_versions.filter (fun v => v.part_id == partId)).foldl
    (fun acc v =>
      match acc with
      | none => some v
      | some a => if a.created_at ≤ v.created_at then some v else some a)
    none

/-- `SELECT * FROM assembly_versions WHERE assembly_id = ? ORDER BY created_at DESC LIMIT 1`. -/
def getLatestAssemblyVersion (db : DB) (assemblyId : Nat) : Option AssemblyVersion :=
  (db.assembly_versions.filter (fun v => v.assembly_id == assemblyId)).foldl
    (fun acc v =>
      match acc with
      | none => some v
      | some a => if a.created_at ≤ v.created_at then some v else some a)
    none

/-- The row inserted by `INSERT INTO part_versions (part_id, version_label,
status, working_path, change_notes)`: fresh id, status `working`, and label
`V{count + 1}` when none was supplied. -/
def newPartVersion (db : DB) (partId : Nat) (version_label working_path change_notes : Option String)
    (now : Nat) : PartVersion :=
  { id := db.pvSeq + 1, part_id := partId,
    version_label := version_label.getD
      ("V" ++ toString ((db.part_versions.filter (fun v => v.part_id == partId)).length + 1)),
    status := "working", storage_path := none, working_path := working_path,
    change_notes := change_notes, frozen_by := none, frozen_at := none,
    created_at := now }

/-- `POST /api/parts/:part_id/versions` (CreateVersion, §4.3): edit permission,
then the single-working-copy gate (latest version, if any, must be frozen),
then `INSERT` with label `V{count+1}` when none is supplied. -/
def createPartVersion (db : DB) (userId : Nat) (role : String) (partId : Nat)
    (version_label : Option String) (working_path : Option String)
    (change_notes : Option String) (now : Nat) :
    Except ApiErr PartVersion × DB :=
  if !canEditPart db userId role partId then
    (.error ⟨403, "No edit permission for this part"⟩, db)
  else
    match getLatestPartVersion db partId with
    | some lastVersion =>
      if lastVersion.status != "frozen" then
        (.error ⟨400, "Previous version must be frozen before creating a new version"⟩, db)
      else
        let pv := newPartVersion db partId version_label working_path change_notes now
        (.ok pv, { db with part_versions := db.part_versions ++ [pv], pvSeq := db.pvSeq + 1 })
    | none =>
      let pv := newPartVersion db partId version_label working_path change_notes now
      (.ok pv, { db with part_versions := db.part_versions ++ [pv], pvSeq := db.pvSeq + 1 })

/-- `function validateEnum(value, allowed, fieldName)` from `server.js`:
an error message when a supplied value is outside the closed set. -/
def validateEnum (value : Option String) (allowed : List String) (fieldName : String) :
    Option String :=
  match value with
  | none => none
  | some v =>
    if !allowed.contains v then
      some ("Invalid " ++ fieldName ++ ": must be one of " ++ String.intercalate ", " allowed)
    else none

def VALID_CRITICALITY : List String := ["normal", "low", "high", "critical"]

/-- `POST /api/parts` (Create, §4.2): role gate, field and length validation,
unique `part_code`, then the part row, its first version `V1` (working) and an
explicit edit-permission grant for the creator. -/
def createPart (db : DB) (userId : Nat) (role : String) (part_code name : String)
    (working_path description material vendor : Option String)
    (criticality : Option String) (tags : Option String) (now : Nat) :
    Except ApiErr Nat × DB :=
  if !(["designer", "admin"].contains role) then
    (.error ⟨403, "Access denied. Requires role: designer or admin"⟩, db)
  else if part_code == "" || name == "" then
    (.error ⟨400, "Missing required fields"⟩, db)
  else if part_code.length > 50 then (.error ⟨400, "Part code too long (max 50)"⟩, db)
  else if name.length > 200 then (.error ⟨400, "Name too long (max 200)"⟩, db)
  else if description.any (fun d => d.length > 2000) then
    (.error ⟨400, "Description too long (max 2000)"⟩, db)
  else
    match validateEnum criticality VALID_CRITICALITY "criticality" with
    | some cErr => (.error ⟨400, cErr⟩, db)
    | none =>
      if db.parts.any (fun p => p.part_code == part_code) then
        (.error ⟨400, "Part code already exists"⟩, db)
      else
        let partId := db.partSeq + 1
        let p : Part :=
          { id := partId, part_code := part_code, name := name, description := description,
            material := material, vendor := vendor, criticality := criticality.getD "normal",
            lifecycle_state := "draft", tags := tags, owner_id := userId, created_at := now }
        let pv : PartVersion :=
          { id := db.pvSeq + 1, part_id := partId, version_label := "V1",
            status := "working", storage_path := none, working_path := working_path,
            change_notes := none, frozen_by := none, frozen_at := none, created_at := now }
        let db1 : DB :=
          { db with
            parts := db.parts ++ [p], part_versions := db.part_versions ++ [pv],
            partSeq := partId, pvSeq := db.pvSeq + 1 }
        let db2 : DB :=
          if db1.part_permissions.any (fun pp => pp.part_id == partId && pp.user_id == userId) then db1
          else { db1 with part_permissions := db1.part_permissions ++ [⟨partId, userId, true⟩] }
        (.ok partId, db2)

/-- The row update applied by the direct part-freeze `UPDATE`: scoped by
id + parent, unconditional on prior status; sets `frozen_by`/`frozen_at` and
fills `storage_path` from `working_path` via `COALESCE`. -/
def freezePartRow (userId now partId versionId : Nat) (v : PartVersion) : PartVersion :=
  if v.id == versionId && v.part_id == partId then
    { v with
      status := "frozen",
      storage_path := v.storage_path.orElse (fun _ => v.working_path),
      frozen_by := some userId, frozen_at := some now }
  else v

/-- `POST /api/parts/:part_id/versions/:version_id/freeze` (Freeze, §4.3). -/
def freezePartVersion (db : DB) (userId : Nat) (role : String)
    (partId versionId : Nat) (now : Nat) : Except ApiErr Unit × DB :=
  if !isApproverOrAdmin role then
    (.error ⟨403, "Only approvers or admins can freeze versions"⟩, db)
  else
    let changes := (db.part_versions.filter (fun v => v.id == versionId && v.part_id == partId)).length
    if changes == 0 then (.error ⟨404, "Part version not found"⟩, db)
    else (.ok (), { db with part_versions := db.part_versions.map (freezePartRow userId now partId versionId) })

/-- The row update applied by the direct assembly-freeze `UPDATE`. -/
def freezeAssemblyRow (userId now assemblyId versionId : Nat) (v : AssemblyVersion) : AssemblyVersion :=
  if v.id == versionId && v.assembly_id == assemblyId then
    { v with
      status := "frozen",
      storage_path := v.storage_path.orElse (fun _ => v.working_path),
      frozen_by := some userId, frozen_at := some now }
  else v

/-- `POST /api/assemblies/:assembly_id/versions/:version_id/freeze`. -/
def freezeAssemblyVersion (db : DB) (userId : Nat) (role : String)
    (assemblyId versionId : Nat) (now : Nat) : Except ApiErr Unit × DB :=
  if !isApproverOrAdmin role then
    (.error ⟨403, "Only approvers or admins can freeze versions"⟩, db)
  else
    let changes := (db.assembly_versions.filter (fun v => v.id == versionId && v.assembly_id == assemblyId)).length
    if changes == 0 then (.error ⟨404, "Assembly version not found"⟩, db)
    else (.ok (), { db with assembly_versions := db.assembly_versions.map (freezeAssemblyRow userId now assemblyId versionId) })

/-- `DELETE /api/parts/:part_id` (Delete, §4.2): admin only; Conflict when any
Composition Edge joins to a version of this part; otherwise cascading delete of
grants, edit requests, versions, then the part row. -/
def deletePart (db : DB) (role : String) (partId : Nat) : Except ApiErr Unit × DB :=
  if role != "admin" then
    (.error ⟨403, "Only admins can delete parts"⟩, db)
  else if db.assembly_parts.any (fun ap =>
      db.part_versions.any (fun pv => pv.id == ap.part_version_id && pv.part_id == partId)) then
    (.error ⟨400, "Cannot delete: part is referenced by assemblies. Remove assembly references first."⟩, db)
  else
    (.ok (),
      { db with
        part_permissions := db.part_permissions.filter (fun pp => pp.part_id != partId),
        edit_requests := db.edit_requests.filter (fun er => er.part_id != partId),
        part_versions := db.part_versions.filter (fun pv => pv.part_id != partId),
        parts := db.parts.filter (fun p => p.id != partId) })

/-- The part-version rows matched by `SELECT id, status FROM part_versions
WHERE id IN (...)` — each stored row at most once, whatever the id list repeats. -/
def pvRows (db : DB) (ids : List Nat) : List PartVersion :=
  db.part_versions.filter (fun v => ids.contains v.id)

/-- The Composition Edges inserted by one multi-row `INSERT INTO assembly_parts`:
consecutive fresh ids, all pointing at the new assembly version. -/
def mkEdges : Nat → Nat → List Nat → List AssemblyPart
  | _, _, [] => []
  | seq, avid, pid :: rest => ⟨seq + 1, avid, pid⟩ :: mkEdges (seq + 1) avid rest

/-- `POST /api/assemblies` (CreateAssembly, §4.4): role gate, required-field and
length validation, resolve + frozen checks on `part_version_ids`, unique
`assembly_code`, then assembly row, first version `V1` and the Composition
Edges.  The edge insert is a separate statement with no enclosing transaction;
`edgesOk = false` models that statement failing, after which the handler
returns 500 with the assembly and version rows already persisted. -/
def createAssembly (db : DB) (userId : Nat) (role : String)
    (assembly_code name : String) (part_version_ids : List Nat)
    (working_path description : Option String) (criticality tags : Option String)
    (now : Nat) (edgesOk : Bool) : Except ApiErr Nat × DB :=
  if !(role == "designer" || role == "admin") then
    (.error ⟨403, "Only designers or admins can create assemblies"⟩, db)
  else if assembly_code == "" || name == "" || part_version_ids.isEmpty then
    (.error ⟨400, "Missing required fields"⟩, db)
  else if assembly_code.length > 50 then (.error ⟨400, "Assembly code too long (max 50)"⟩, db)
  else if name.length > 200 then (.error ⟨400, "Name too long (max 200)"⟩, db)
  else if description.any (fun d => d.length > 2000) then
    (.error ⟨400, "Description too long (max 2000)"⟩, db)
  else if (pvRows db part_version_ids).length != part_version_ids.length then
    (.error ⟨400, "One or more part versions not found"⟩, db)
  else if ((pvRows db part_version_ids).find? (fun row => row.status != "frozen")).isSome then
    (.error ⟨400, "All part versions must be frozen before creating assembly"⟩, db)
  else if db.assemblies.any (fun a => a.assembly_code == assembly_code) then
    (.error ⟨400, "Assembly code already exists"⟩, db)
  else
    let assemblyId := db.asmSeq + 1
    let a : Assembly :=
      { id := assemblyId, assembly_code := assembly_code, name := name,
        description := description, criticality := criticality.getD "normal",
        tags := tags, owner_id := userId, created_at := now }
    let avId := db.avSeq + 1
    let av : AssemblyVersion :=
      { id := avId, assembly_id := assemblyId, version_label := "V1",
        status := "working", storage_path := none, working_path := working_path,
        frozen_by := none, frozen_at := none, created_at := now }
    let db1 : DB :=
      { db with
        assemblies := db.assemblies ++ [a],
        assembly_versions := db.assembly_versions ++ [av],
        asmSeq := assemblyId, avSeq := avId }
    if !edgesOk then (.error ⟨500, "database error"⟩, db1)
    else
      let edges := mkEdges db1.apSeq avId part_version_ids
      (.ok assemblyId,
        { db1 with
          assembly_parts := db1.assembly_parts ++ edges,
          apSeq := db1.apSeq + part_version_ids.length })

/-- The tail of the CreateAssemblyVersion handler after the single-working-copy
gate: resolve + frozen checks on `part_version_ids`, then the version row
insert and the Composition Edge insert (two separate statements). -/
def createAssemblyVersionInsert (db : DB) (assemblyId : Nat) (version_label : Option String)
    (part_version_ids : List Nat) (working_path : Option String) (now : Nat)
    (edgesOk : Bool) : Except ApiErr Nat × DB :=
  if (pvRows db part_version_ids).length != part_version_ids.length then
    (.error ⟨400, "One or more part versions not found"⟩, db)
  else if ((pvRows db part_version_ids).find? (fun row => row.status != "frozen")).isSome then
    (.error ⟨400, "All part versions must be frozen before creating assembly version"⟩, db)
  else
    let count := (db.assembly_versions.filter (fun v => v.assembly_id == assemblyId)).length
    let nextLabel := version_label.getD ("V" ++ toString (count + 1))
    let avId := db.avSeq + 1
    let av : AssemblyVersion :=
      { id := avId, assembly_id := assemblyId, version_label := nextLabel,
        status := "working", storage_path := none, working_path := working_path,
        frozen_by := none, frozen_at := none, created_at := now }
    let db1 : DB := { db with assembly_versions := db.assembly_versions ++ [av], avSeq := avId }
    if !edgesOk then (.error ⟨500, "database error"⟩, db1)
    else
      let edges := mkEdges db1.apSeq avId part_version_ids
      (.ok avId,
        { db1 with
          assembly_parts := db1.assembly_parts ++ edges,
          apSeq := db1.apSeq + part_version_ids.length })

/-- `POST /api/assemblies/:assembly_id/versions` (CreateAssemblyVersion, §4.4):
non-empty id list, single-working-copy gate on the assembly, resolve + frozen
checks, then the version row and the Composition Edges.  As in `createAssembly`
the two inserts are separate statements with no transaction; `edgesOk = false`
models the edge insert failing after the version row was persisted. -/
def createAssemblyVersion (db : DB) (assemblyId : Nat)
    (version_label : Option String) (part_version_ids : List Nat)
    (working_path : Option String) (now : Nat) (edgesOk : Bool) :
    Except ApiErr Nat × DB :=
  if part_version_ids.isEmpty then
    (.error ⟨400, "part_version_ids is required"⟩, db)
  else
    match getLatestAssemblyVersion db assemblyId with
    | some lastVersion =>
      if lastVersion.status != "frozen" then
        (.error ⟨400, "Previous assembly version must be frozen before creating a new version"⟩, db)
      else createAssemblyVersionInsert db assemblyId version_label part_version_ids working_path now edgesOk
    | none => createAssemblyVersionInsert db assemblyId version_label part_version_ids working_path now edgesOk

/-- `POST /api/parts/:part_id/edit-requests`: designer role only, then a bare
`INSERT` — no check that the part exists (and foreign keys are unenforced). -/
def createEditRequest (db : DB) (userId : Nat) (role : String) (partId : Nat)
    (reason : Option String) (now : Nat) : Except ApiErr EditRequest × DB :=
  if role != "designer" then
    (.error ⟨403, "Only designers can request edit access"⟩, db)
  else
    let er : EditRequest :=
      { id := db.erSeq + 1, part_id := partId, requester_id := userId,
        status := "pending", reason := reason, decided_by := none, decided_at := none,
        created_at := now }
    (.ok er, { db with edit_requests := db.edit_requests ++ [er], erSeq := db.erSeq + 1 })

/-- `POST /api/release-requests`: required-field and `item_type` enum checks,
then a bare `INSERT` — no check that the referenced version exists. -/
def createReleaseRequest (db : DB) (userId : Nat)
    (item_type : Option String) (item_version_id : Option Nat)
    (reason : Option String) (now : Nat) : Except ApiErr ReleaseRequest × DB :=
  match item_type, item_version_id with
  | some ity, some vid =>
    if ity != "part" && ity != "assembly" then
      (.error ⟨400, "Invalid item_type"⟩, db)
    else
      let rr : ReleaseRequest :=
        { id := db.rrSeq + 1, item_type := ity, item_version_id := vid,
          requester_id := userId, status := "pending", reason := reason,
          decided_by := none, decided_at := none, created_at := now }
      (.ok rr, { db with release_requests := db.release_requests ++ [rr], rrSeq := db.rrSeq + 1 })
  | _, _ => (.error ⟨400, "Missing required fields"⟩, db)

/-- The row update of the release-approval freeze `UPDATE` on part versions:
sets `status` and fills `storage_path`, but records no `frozen_by`/`frozen_at`. -/
def releaseFreezePartRow (versionId : Nat) (v : PartVersion) : PartVersion :=
  if v.id == versionId then
    { v with status := "frozen", storage_path := v.storage_path.orElse (fun _ => v.working_path) }
  else v

/-- The release-approval freeze `UPDATE` on assembly versions. -/
def releaseFreezeAssemblyRow (versionId : Nat) (v : AssemblyVersion) : AssemblyVersion :=
  if v.id == versionId then
    { v with status := "frozen", storage_path := v.storage_path.orElse (fun _ => v.working_path) }
  else v

/-- `POST /api/release-requests/:request_id/approve`: approver-or-admin, request
must exist; marks it approved and runs the freeze `UPDATE` on the part or
assembly version table according to `item_type`. -/
def approveReleaseRequest (db : DB) (userId : Nat) (role : String)
    (requestId : Nat) (now : Nat) : Except ApiErr Unit × DB :=
  if !isApproverOrAdmin role then
    (.error ⟨403, "Only approvers or admins can approve release requests"⟩, db)
  else
    match db.release_requests.find? (fun r => r.id == requestId) with
    | none => (.error ⟨404, "Request not found"⟩, db)
    | some request =>
      let db1 : DB :=
        { db with release_requests := db.release_requests.map (fun r =>
            if r.id == requestId then
              { r with status := "approved", decided_by := some userId, decided_at := some now }
            else r) }
      if request.item_type == "part" then
        (.ok (), { db1 with part_versions :=
          db1.part_versions.map (releaseFreezePartRow request.item_version_id) })
      else
        (.ok (), { db1 with assembly_versions :=
          db1.assembly_versions.map (releaseFreezeAssemblyRow request.item_version_id) })

/-- `GET /api/parts/:id/versions/compare` (Compare, §4.3): the `IN (?, ?)`
query returns each stored row at most once, so `rows.length !== 2` rejects
unless two distinct matching rows exist; on success the two records are read
back out of the row set by id. -/
def compareVersions (db : DB) (partId v1 v2 : Nat) :
    Except ApiErr (Option PartVersion × Option PartVersion) :=
  let rows := db.part_versions.filter (fun pv => (pv.id == v1 || pv.id == v2) && pv.part_id == partId)
  if rows.length != 2 then .error ⟨404, "One or both versions not found"⟩
  else .ok (rows.find? (fun r => r.id == v1), rows.find? (fun r => r.id == v2))

/-- The row update of the bulk-freeze `UPDATE`: guarded on `status = 'working'`
in the `WHERE` clause; sets `frozen_by`/`frozen_at` but not `storage_path`. -/
def bulkFreezeRow (userId now : Nat) (version_ids : List Nat) (v : PartVersion) : PartVersion :=
  if version_ids.contains v.id && v.status == "working" then
    { v with status := "frozen", frozen_by := some userId, frozen_at := some now }
  else v

/-- `POST /api/parts/bulk-freeze`: admin-or-approver, non-empty id list, one
`UPDATE ... WHERE id IN (...) AND status = 'working'`; answers with the number
of rows actually changed. -/
def bulkFreezeParts (db : DB) (userId : Nat) (role : String)
    (version_ids : List Nat) (now : Nat) : Except ApiErr Nat × DB :=
  if !(["admin", "approver"].contains role) then
    (.error ⟨403, "Access denied. Requires role: admin or approver"⟩, db)
  else if version_ids.isEmpty then
    (.error ⟨400, "No version IDs provided"⟩, db)
  else
    let changes := (db.part_versions.filter (fun v =>
      version_ids.contains v.id && v.status == "working")).length
    (.ok changes, { db with part_versions := db.part_versions.map (bulkFreezeRow userId now version_ids) })

instance {ε α : Type} [DecidableEq ε] [DecidableEq α] : DecidableEq (Except ε α) := fun a b =>
  match a, b with
  | .error e, .error f => decidable_of_iff (e = f) (by simp)
  | .ok x, .ok y => decidable_of_iff (x = y) (by simp)
  | .error _, .ok _ => isFalse (fun h => Except.noConfusion h)
  | .ok _, .error _ => isFalse (fun h => Except.noConfusion h)

/-! ### Concrete states used to settle the claims on explicit inputs -/

/-- A reachable state: a designer creates part `PN-100` (no working path), so a
single working version `V1` exists. -/
def dbAfterCreate : DB :=
  (createPart DB.empty 2 "designer" "PN-100" "Bracket" none none none none none none 1).2

/-- A reachable state: a release request is filed for part version 1. -/
def dbAfterRequest : DB :=
  (createReleaseRequest dbAfterCreate 3 (some "part") (some 1) none 2).2

/-- A reachable state: an approver approves the release request, which freezes
part version 1 through the release-approval path. -/
def dbAfterApprove : DB :=
  (approveReleaseRequest dbAfterRequest 4 "approver" 1 3).2

/-- One working part version with a working path, plus a pending release
request targeting it. -/
def dbRel : DB :=
  { DB.empty with
    part_versions := [⟨1, 1, "V1", "working", none, some "wp", none, none, none, 1⟩],
    release_requests := [⟨1, "part", 1, 9, "pending", none, none, none, 2⟩],
    pvSeq := 1, rrSeq := 1 }

/-- One frozen part version and one assembly with no versions yet. -/
def dbAsm : DB :=
  { DB.empty with
    parts := [⟨1, "PN-1", "P", none, none, none, "normal", "draft", none, 1, 1⟩],
    part_versions := [⟨1, 1, "V1", "frozen", some "sp", none, none, some 1, some 1, 1⟩],
    assemblies := [⟨1, "ASM-1", "A", none, "normal", none, 1, 1⟩],
    partSeq := 1, pvSeq := 1, asmSeq := 1 }

/-- One part version already frozen by user 1 at time 10. -/
def dbFrozen : DB :=
  { DB.empty with
    parts := [⟨1, "PN-1", "P", none, none, none, "normal", "draft", none, 1, 1⟩],
    part_versions := [⟨1, 1, "V1", "frozen", some "sp", some "wp", none, some 1, some 10, 1⟩],
    partSeq := 1, pvSeq := 1 }

/-- One part with a single version, for the compare endpoint. -/
def dbOnePV : DB :=
  { DB.empty with
    parts := [⟨1, "PN-1", "P", none, none, none, "normal", "draft", none, 1, 1⟩],
    part_versions := [⟨1, 1, "V1", "working", none, none, none, none, none, 1⟩],
    partSeq := 1, pvSeq := 1 }

/-! ### Theorems -/

/-- C3 counterexample: in the reachable state where part version 1 was frozen by
approving a release request, the version has `status = frozen` but `frozen_by`,
`frozen_at` and `storage_path` are all null — the release-approval freeze query
sets neither `frozen_by` nor `frozen_at`, and `COALESCE(storage_path,
working_path)` keeps `storage_path` null when no working path was uploaded. -/
theorem releaseApprove_frozen_null_provenance_cex :
    ∃ v ∈ dbAfterApprove.part_versions,
      v.status = "frozen" ∧ v.frozen_by = none ∧ v.frozen_at = none ∧
      v.storage_path = none := by
  decide

/-- C4 counterexample: on the same starting state, approving the release request
(for version 1, by user 7 at time 5) and directly freezing version 1 (same user,
same time) produce different version records: the approval path leaves
`frozen_by`/`frozen_at` null while the direct path records user 7 / time 5. -/
theorem approve_vs_direct_freeze_differ_cex :
    (approveReleaseRequest dbRel 7 "approver" 1 5).2.part_versions =
      [⟨1, 1, "V1", "frozen", some "wp", some "wp", none, none, none, 1⟩] ∧
    (freezePartVersion dbRel 7 "approver" 1 1 5).2.part_versions =
      [⟨1, 1, "V1", "frozen", some "wp", some "wp", none, some 7, some 5, 1⟩] ∧
    (approveReleaseRequest dbRel 7 "approver" 1 5).2.part_versions ≠
      (freezePartVersion dbRel 7 "approver" 1 1 5).2.part_versions := by
  decide

/-- C5: CreateAssemblyVersion is not atomic.  Starting from a state with one
frozen part version and an assembly with no versions, a run whose
composition-edge insert fails (`edgesOk = false`) returns a 500 error yet
leaves the freshly inserted assembly-version row persisted, with zero edges —
partial composition persists, contradicting the required atomicity. -/
theorem createAssemblyVersion_not_atomic :
    dbAsm.assembly_versions = [] ∧
    (createAssemblyVersion dbAsm 1 none [1] none 3 false).1 =
      .error ⟨500, "database error"⟩ ∧
    (createAssemblyVersion dbAsm 1 none [1] none 3 false).2.assembly_versions =
      [⟨1, 1, "V1", "working", none, none, none, none, 3⟩] ∧
    (createAssemblyVersion dbAsm 1 none [1] none 3 false).2.assembly_parts = [] := by
  decide

/-- C7 counterexample: version 1 is already frozen by user 1 at time 10.
Re-freezing it as user 2 at time 20 is not rejected (the call succeeds) and
overwrites `frozen_by`/`frozen_at` to user 2 / time 20 — neither disjunct of
the claim (fields preserved, or re-freeze rejected) holds. -/
theorem refreeze_overwrites_provenance_cex :
    (freezePartVersion dbFrozen 2 "approver" 1 1 20).1 = .ok () ∧
    (freezePartVersion dbFrozen 2 "approver" 1 1 20).2.part_versions =
      [⟨1, 1, "V1", "frozen", some "sp", some "wp", none, some 2, some 20, 1⟩] ∧
    ¬ (freezePartVersion dbFrozen 2 "approver" 1 1 20).2.part_versions =
      dbFrozen.part_versions := by
  decide

/-- C8 counterexample: on the empty database (no parts, no versions), creating
an edit request for part 99 and a release request for version 55 both succeed
and insert rows referencing the non-existent ids — no existence check runs and
foreign keys are unenforced. -/
theorem request_creation_no_existence_check_cex :
    DB.empty.parts = [] ∧ DB.empty.part_versions = [] ∧
    (createEditRequest DB.empty 2 "designer" 99 none 1).1 =
      .ok ⟨1, 99, 2, "pending", none, none, none, 1⟩ ∧
    (createEditRequest DB.empty 2 "designer" 99 none 1).2.edit_requests =
      [⟨1, 99, 2, "pending", none, none, none, 1⟩] ∧
    (createReleaseRequest DB.empty 2 (some "part") (some 55) none 1).1 =
      .ok ⟨1, "part", 55, 2, "pending", none, none, none, 1⟩ ∧
    (createReleaseRequest DB.empty 2 (some "part") (some 55) none 1).2.release_requests =
      [⟨1, "part", 55, 2, "pending", none, none, none, 1⟩] := by
  decide

/-- C9 counterexample: version 1 exists and belongs to part 1, yet comparing
version 1 with itself fails with 404: the `IN (?, ?)` query returns the single
matching row once, so the `rows.length !== 2` guard fires. -/
theorem compare_same_id_notfound_cex :
    (∃ v ∈ dbOnePV.part_versions, v.id = 1 ∧ v.part_id = 1) ∧
    compareVersions dbOnePV 1 1 1 = .error ⟨404, "One or both versions not found"⟩ := by
  decide

/-- `List.contains` on `Nat` agrees with membership. -/
lemma contains_iff_mem {l : List Nat} {a : Nat} : l.contains a = true ↔ a ∈ l :=
  ⟨List.mem_of_elem_eq_true, List.elem_eq_true_of_mem⟩

/-- Every edge produced by one multi-row insert points at the new assembly
version and carries a part-version id from the request list. -/
lemma mkEdges_mem (seq avid : Nat) (ids : List Nat) (ap : AssemblyPart)
    (h : ap ∈ mkEdges seq avid ids) :
    ap.part_version_id ∈ ids ∧ ap.assembly_version_id = avid := by
  induction ids generalizing seq with
  | nil => simp [mkEdges] at h
  | cons pid rest ih =>
    simp only [mkEdges, List.mem_cons] at h
    rcases h with h | h
    · subst h; exact ⟨List.mem_cons_self _ _, rfl⟩
    · obtain ⟨h1, h2⟩ := ih _ h
      exact ⟨List.mem_cons_of_mem _ h1, h2⟩

/-- Membership in the resolved row set. -/
lemma mem_pvRows {db : DB} {ids : List Nat} {pv : PartVersion} (h : pv ∈ pvRows db ids) :
    pv ∈ db.part_versions ∧ pv.id ∈ ids := by
  simp only [pvRows, List.mem_filter] at h
  exact ⟨h.1, contains_iff_mem.mp h.2⟩

/-- When the `IN (...)` lookup matched as many rows as there are requested ids
and stored ids are unique, every requested id is matched by some row. -/
lemma pvRows_covers {db : DB} {ids : List Nat}
    (hnd : (db.part_versions.map (fun v => v.id)).Nodup)
    (hlen : (pvRows db ids).length = ids.length)
    {pid : Nat} (hpid : pid ∈ ids) :
    ∃ pv ∈ pvRows db ids, pv.id = pid := by
  classical
  set f := pvRows db ids with hf
  have hsub : f.Sublist db.part_versions := List.filter_sublist _
  have hndf : (f.map (fun v => v.id)).Nodup := hnd.sublist (hsub.map _)
  have hmem : ∀ x ∈ f.map (fun v => v.id), x ∈ ids := by
    intro x hx
    obtain ⟨pv, hpv, rfl⟩ := List.mem_map.mp hx
    exact (mem_pvRows hpv).2
  have hsubset : (f.map (fun v => v.id)).toFinset ⊆ ids.toFinset := by
    intro x hx
    exact List.mem_toFinset.mpr (hmem x (List.mem_toFinset.mp hx))
  have hcard1 : (f.map (fun v => v.id)).toFinset.card = ids.length := by
    rw [List.toFinset_card_of_nodup hndf, List.length_map, hlen]
  have hcard2 : ids.toFinset.card ≤ (f.map (fun v => v.id)).toFinset.card := by
    rw [hcard1]; exact ids.toFinset_card_le
  have heq : (f.map (fun v => v.id)).toFinset = ids.toFinset :=
    Finset.eq_of_subset_of_card_le hsubset hcard2
  have hpidf : pid ∈ (f.map (fun v => v.id)).toFinset := by
    rw [heq]; exact List.mem_toFinset.mpr hpid
  obtain ⟨pv, hpv, hid⟩ := List.mem_map.mp (List.mem_toFinset.mp hpidf)
  exact ⟨pv, hpv, hid⟩

/-- Edges inserted by the CreateAssemblyVersion tail reference only part
versions that were frozen in the pre-state. -/
lemma insert_edges_frozen (db : DB) (aid : Nat) (lbl : Option String) (ids : List Nat)
    (wp : Option String) (now : Nat) (edgesOk : Bool)
    (hnd : (db.part_versions.map (fun v => v.id)).Nodup) :
    ∀ ap ∈ (createAssemblyVersionInsert db aid lbl ids wp now edgesOk).2.assembly_parts,
      ap ∉ db.assembly_parts →
      ∃ pv ∈ db.part_versions, pv.id = ap.part_version_id ∧ pv.status = "frozen" := by
  intro ap hap hnot
  by_cases hlen : ((pvRows db ids).length != ids.length) = true
  · simp [createAssemblyVersionInsert, hlen] at hap
    exact absurd hap hnot
  · by_cases hfind : ((pvRows db ids).find? (fun row => row.status != "frozen")).isSome = true
    · simp [createAssemblyVersionInsert, hlen, hfind] at hap
      exact absurd hap hnot
    · by_cases hedge : edgesOk
      · have hap2 : ap ∈ db.assembly_parts ++ mkEdges db.apSeq (db.avSeq + 1) ids := by
          simpa [createAssemblyVersionInsert, hlen, hfind, hedge] using hap
        rcases List.mem_append.mp hap2 with h | h
        · exact absurd h hnot
        · obtain ⟨hin, _⟩ := mkEdges_mem _ _ _ _ h
          have hlen2 : (pvRows db ids).length = ids.length := by simpa using hlen
          obtain ⟨pv, hpv, hid⟩ := pvRows_covers hnd hlen2 hin
          have hfr : pv.status = "frozen" := by
            cases hf2 : (pvRows db ids).find? (fun row => row.status != "frozen") with
            | some nf => rw [hf2] at hfind; simp at hfind
            | none =>
              have hx := List.find?_eq_none.mp hf2 pv hpv
              simpa using hx
          exact ⟨pv, (mem_pvRows hpv).1, hid, hfr⟩
      · simp [createAssemblyVersionInsert, hlen, hfind, hedge] at hap
        exact absurd hap hnot

/-- The CreateAssemblyVersion tail rejects when some requested id is unmatched. -/
lemma insert_not_found (db : DB) (aid : Nat) (lbl : Option String) (ids : List Nat)
    (wp : Option String) (now : Nat) (edgesOk : Bool)
    (hlen : (pvRows db ids).length ≠ ids.length) :
    createAssemblyVersionInsert db aid lbl ids wp now edgesOk =
      (.error ⟨400, "One or more part versions not found"⟩, db) := by
  have h : ((pvRows db ids).length != ids.length) = true := by simpa using hlen
  simp [createAssemblyVersionInsert, h]

/-- The CreateAssemblyVersion tail rejects when some resolved row is unfrozen. -/
lemma insert_not_frozen (db : DB) (aid : Nat) (lbl : Option String) (ids : List Nat)
    (wp : Option String) (now : Nat) (edgesOk : Bool)
    (hlen : (pvRows db ids).length = ids.length)
    (hex : ∃ pv ∈ pvRows db ids, pv.status ≠ "frozen") :
    createAssemblyVersionInsert db aid lbl ids wp now edgesOk =
      (.error ⟨400, "All part versions must be frozen before creating assembly version"⟩, db) := by
  have h1 : ((pvRows db ids).length != ids.length) = false := by simpa using hlen
  have h2 : ((pvRows db ids).find? (fun row => row.status != "frozen")).isSome = true := by
    obtain ⟨pv, hpv, hst⟩ := hex
    cases hf : (pvRows db ids).find? (fun row => row.status != "frozen") with
    | some _ => rfl
    | none => exact absurd (by simpa using List.find?_eq_none.mp hf pv hpv) hst
  simp [createAssemblyVersionInsert, h1, h2]

/-- CreateAssemblyVersion reduces to its insert tail once the non-empty and
single-working-copy gates pass. -/
lemma createAssemblyVersion_eq_insert (db : DB) (aid : Nat) (lbl : Option String)
    (ids : List Nat) (wp : Option String) (now : Nat) (edgesOk : Bool)
    (hne : ids ≠ [])
    (hprev : (getLatestAssemblyVersion db aid).all (fun lv => lv.status == "frozen") = true) :
    createAssemblyVersion db aid lbl ids wp now edgesOk =
      createAssemblyVersionInsert db aid lbl ids wp now edgesOk := by
  have hemp : ids.isEmpty = false := by
    cases ids with
    | nil => exact absurd rfl hne
    | cons a t => rfl
  cases hl : getLatestAssemblyVersion db aid with
  | none => simp [createAssemblyVersion, hemp, hl]
  | some lv =>
    rw [hl] at hprev
    have hst : lv.status = "frozen" := by simpa [Option.all] using hprev
    simp [createAssemblyVersion, hemp, hl, hst]

/-- Every Composition Edge newly inserted by CreateAssembly references a part
version that was frozen in the pre-state (all other branches leave the edge
table untouched). -/
lemma createAssembly_edges_frozen (db : DB) (u : Nat) (role : String)
    (code name : String) (ids : List Nat) (wp desc crit tags : Option String)
    (now : Nat) (edgesOk : Bool)
    (hnd : (db.part_versions.map (fun v => v.id)).Nodup) :
    ∀ ap ∈ (createAssembly db u role code name ids wp desc crit tags now edgesOk).2.assembly_parts,
      ap ∉ db.assembly_parts →
      ∃ pv ∈ db.part_versions, pv.id = ap.part_version_id ∧ pv.status = "frozen" := by
  intro ap hap hnot
  by_cases h1 : (role == "designer" || role == "admin") = true
  case neg => simp [createAssembly, h1] at hap; exact absurd hap hnot
  by_cases h2 : (code == "" || name == "" || ids.isEmpty) = true
  case pos => simp [createAssembly, h1, h2] at hap; exact absurd hap hnot
  by_cases h3 : code.length > 50
  case pos => simp [createAssembly, h1, h2, h3] at hap; exact absurd hap hnot
  by_cases h4 : name.length > 200
  case pos => simp [createAssembly, h1, h2, h3, h4] at hap; exact absurd hap hnot
  by_cases h5 : (desc.any fun d => d.length > 2000) = true
  case pos => simp [createAssembly, h1, h2, h3, h4, h5] at hap; exact absurd hap hnot
  by_cases h7 : ((pvRows db ids).length != ids.length) = true
  case pos => simp [createAssembly, h1, h2, h3, h4, h5, h7] at hap; exact absurd hap hnot
  by_cases h8 : ((pvRows db ids).find? (fun row => row.status != "frozen")).isSome = true
  case pos => simp [createAssembly, h1, h2, h3, h4, h5, h7, h8] at hap; exact absurd hap hnot
  by_cases h9 : (db.assemblies.any fun a => a.assembly_code == code) = true
  case pos => simp [createAssembly, h1, h2, h3, h4, h5, h7, h8, h9] at hap; exact absurd hap hnot
  by_cases h10 : edgesOk = true
  case neg => simp [createAssembly, h1, h2, h3, h4, h5, h7, h8, h9, h10] at hap; exact absurd hap hnot
  have hap2 : ap ∈ db.assembly_parts ++ mkEdges db.apSeq (db.avSeq + 1) ids := by
    simpa [createAssembly, h1, h2, h3, h4, h5, h7, h8, h9, h10] using hap
  rcases List.mem_append.mp hap2 with h | h
  · exact absurd h hnot
  · obtain ⟨hin, _⟩ := mkEdges_mem _ _ _ _ h
    have hlen2 : (pvRows db ids).length = ids.length := by simpa using h7
    obtain ⟨pv, hpv, hid⟩ := pvRows_covers hnd hlen2 hin
    have hfr : pv.status = "frozen" := by
      cases hf2 : (pvRows db ids).find? (fun row => row.status != "frozen") with
      | some nf => rw [hf2] at h8; simp at h8
      | none =>
        have hx := List.find?_eq_none.mp hf2 pv hpv
        simpa using hx
    exact ⟨pv, (mem_pvRows hpv).1, hid, hfr⟩

/-- CreateAssembly rejects with the not-found error when some requested
part-version id is unmatched, once its earlier validation gates pass. -/
lemma createAssembly_not_found (db : DB) (u : Nat) (role : String)
    (code name : String) (ids : List Nat) (wp desc crit tags : Option String)
    (now : Nat) (edgesOk : Bool)
    (hrole : role = "designer" ∨ role = "admin")
    (hcode : code ≠ "") (hname : name ≠ "") (hne : ids ≠ [])
    (hclen : code.length ≤ 50) (hnlen : name.length ≤ 200)
    (hdesc : ∀ d, desc = some d → d.length ≤ 2000)
    (hlen : (pvRows db ids).length ≠ ids.length) :
    createAssembly db u role code name ids wp desc crit tags now edgesOk =
      (.error ⟨400, "One or more part versions not found"⟩, db) := by
  have h1 : (role == "designer" || role == "admin") = true := by
    rcases hrole with h | h <;> simp [h]
  have hemp : ids.isEmpty = false := by
    cases ids with
    | nil => exact absurd rfl hne
    | cons a t => rfl
  have h2 : (code == "" || name == "" || ids.isEmpty) = false := by
    simp [hemp, beq_iff_eq, hcode, hname]
  have h3 : ¬ code.length > 50 := by omega
  have h4 : ¬ name.length > 200 := by omega
  have h5 : (desc.any fun d => d.length > 2000) = false := by
    cases hd : desc with
    | none => rfl
    | some d =>
      have := hdesc d hd
      simp [Option.any]
      omega
  have h7 : ((pvRows db ids).length != ids.length) = true := by simpa using hlen
  simp [createAssembly, h1, h2, h3, h4, h5, h7]

/-- CreateAssembly rejects with the must-be-frozen error when every id
resolves but some resolved row is unfrozen. -/
lemma createAssembly_not_frozen (db : DB) (u : Nat) (role : String)
    (code name : String) (ids : List Nat) (wp desc crit tags : Option String)
    (now : Nat) (edgesOk : Bool)
    (hrole : role = "designer" ∨ role = "admin")
    (hcode : code ≠ "") (hname : name ≠ "") (hne : ids ≠ [])
    (hclen : code.length ≤ 50) (hnlen : name.length ≤ 200)
    (hdesc : ∀ d, desc = some d → d.length ≤ 2000)
    (hlen : (pvRows db ids).length = ids.length)
    (hex : ∃ pv ∈ pvRows db ids, pv.status ≠ "frozen") :
    createAssembly db u role code name ids wp desc crit tags now edgesOk =
      (.error ⟨400, "All part versions must be frozen before creating assembly"⟩, db) := by
  have h1 : (role == "designer" || role == "admin") = true := by
    rcases hrole with h | h <;> simp [h]
  have hemp : ids.isEmpty = false := by
    cases ids with
    | nil => exact absurd rfl hne
    | cons a t => rfl
  have h2 : (code == "" || name == "" || ids.isEmpty) = false := by
    simp [hemp, beq_iff_eq, hcode, hname]
  have h3 : ¬ code.length > 50 := by omega
  have h4 : ¬ name.length > 200 := by omega
  have h5 : (desc.any fun d => d.length > 2000) = false := by
    cases hd : desc with
    | none => rfl
    | some d =>
      have := hdesc d hd
      simp [Option.any]
      omega
  have h7 : ((pvRows db ids).length != ids.length) = false := by simpa using hlen
  have h8 : ((pvRows db ids).find? (fun row => row.status != "frozen")).isSome = true := by
    obtain ⟨pv, hpv, hst⟩ := hex
    cases hf : (pvRows db ids).find? (fun row => row.status != "frozen") with
    | some _ => rfl
    | none => exact absurd (by simpa using List.find?_eq_none.mp hf pv hpv) hst
  simp [createAssembly, h1, h2, h3, h4, h5, h7, h8]

/-- C1: both assembly-creating operations (CreateAssembly and
CreateAssemblyVersion) fail with the 400 not-found error when any requested
part-version id does not resolve, fail with the must-be-frozen 400 error when
all ids resolve but some resolved version is not `frozen`, and consequently
every Composition Edge either operation inserts references a part version that
was `frozen` in the pre-state (the moment the edge was created). -/
theorem assembly_ops_reference_only_frozen
    (db : DB) (u : Nat) (role : String) (aid : Nat) (code nm : String)
    (lbl wp desc crit tags : Option String) (ids : List Nat) (now : Nat) (edgesOk : Bool) :
    (ids ≠ [] →
      (getLatestAssemblyVersion db aid).all (fun lv => lv.status == "frozen") = true →
      (pvRows db ids).length ≠ ids.length →
      createAssemblyVersion db aid lbl ids wp now edgesOk =
        (.error ⟨400, "One or more part versions not found"⟩, db)) ∧
    (ids ≠ [] →
      (getLatestAssemblyVersion db aid).all (fun lv => lv.status == "frozen") = true →
      (pvRows db ids).length = ids.length →
      (∃ pv ∈ pvRows db ids, pv.status ≠ "frozen") →
      createAssemblyVersion db aid lbl ids wp now edgesOk =
        (.error ⟨400, "All part versions must be frozen before creating assembly version"⟩, db)) ∧
    ((db.part_versions.map (fun v => v.id)).Nodup →
      ∀ ap ∈ (createAssemblyVersion db aid lbl ids wp now edgesOk).2.assembly_parts,
        ap ∉ db.assembly_parts →
        ∃ pv ∈ db.part_versions, pv.id = ap.part_version_id ∧ pv.status = "frozen") ∧
    (role = "designer" ∨ role = "admin" → code ≠ "" → nm ≠ "" → ids ≠ [] →
      code.length ≤ 50 → nm.length ≤ 200 → (∀ d, desc = some d → d.length ≤ 2000) →
      (pvRows db ids).length ≠ ids.length →
      createAssembly db u role code nm ids wp desc crit tags now edgesOk =
        (.error ⟨400, "One or more part versions not found"⟩, db)) ∧
    (role = "designer" ∨ role = "admin" → code ≠ "" → nm ≠ "" → ids ≠ [] →
      code.length ≤ 50 → nm.length ≤ 200 → (∀ d, desc = some d → d.length ≤ 2000) →
      (pvRows db ids).length = ids.length →
      (∃ pv ∈ pvRows db ids, pv.status ≠ "frozen") →
      createAssembly db u role code nm ids wp desc crit tags now edgesOk =
        (.error ⟨400, "All part versions must be frozen before creating assembly"⟩, db)) ∧
    ((db.part_versions.map (fun v => v.id)).Nodup →
      ∀ ap ∈ (createAssembly db u role code nm ids wp desc crit tags now edgesOk).2.assembly_parts,
        ap ∉ db.assembly_parts →
        ∃ pv ∈ db.part_versions, pv.id = ap.part_version_id ∧ pv.status = "frozen") := by
  refine ⟨?_, ?_, ?_, ?_, ?_, ?_⟩
  · intro hne hprev hlen
    rw [createAssemblyVersion_eq_insert db aid lbl ids wp now edgesOk hne hprev]
    exact insert_not_found db aid lbl ids wp now edgesOk hlen
  · intro hne hprev hlen hex
    rw [createAssemblyVersion_eq_insert db aid lbl ids wp now edgesOk hne hprev]
    exact insert_not_frozen db aid lbl ids wp now edgesOk hlen hex
  · intro hnd ap hap hnot
    by_cases hemp : ids.isEmpty = true
    · simp [createAssemblyVersion, hemp] at hap
      exact absurd hap hnot
    · cases hl : getLatestAssemblyVersion db aid with
      | none =>
        have hap2 : ap ∈ (createAssemblyVersionInsert db aid lbl ids wp now edgesOk).2.assembly_parts := by
          simpa [createAssemblyVersion, hemp, hl] using hap
        exact insert_edges_frozen db aid lbl ids wp now edgesOk hnd ap hap2 hnot
      | some lv =>
        by_cases hst : lv.status = "frozen"
        · have hap2 : ap ∈ (createAssemblyVersionInsert db aid lbl ids wp now edgesOk).2.assembly_parts := by
            simpa [createAssemblyVersion, hemp, hl, hst] using hap
          exact insert_edges_frozen db aid lbl ids wp now edgesOk hnd ap hap2 hnot
        · simp [createAssemblyVersion, hemp, hl, hst] at hap
          exact absurd hap hnot
  · intro hrole hcode hname hne hclen hnlen hdesc hlen
    exact createAssembly_not_found db u role code nm ids wp desc crit tags now edgesOk
      hrole hcode hname hne hclen hnlen hdesc hlen
  · intro hrole hcode hname hne hclen hnlen hdesc hlen hex
    exact createAssembly_not_frozen db u role code nm ids wp desc crit tags now edgesOk
      hrole hcode hname hne hclen hnlen hdesc hlen hex
  · intro hnd
    exact createAssembly_edges_frozen db u role code nm ids wp desc crit tags now edgesOk hnd

/-- C1 witness: on the concrete state `dbAsm` (one frozen part version with id
1), requesting a new assembly version that references the non-existent part
version 99 fails with the not-found error and leaves the state unchanged. -/
theorem assembly_ops_reference_only_frozen_witness :
    createAssemblyVersion dbAsm 1 none [99] none 5 true =
      (.error ⟨400, "One or more part versions not found"⟩, dbAsm) := by
  exact (assembly_ops_reference_only_frozen dbAsm 1 "designer" 1 "X" "Y"
      none none none none none [99] 5 true).1
    (by decide) (by decide) (by decide)

/-- C2: CreateVersion succeeds only when the part has no versions or its most
recently created version is frozen; an authorized call against an unfrozen
latest version fails with the 400 conflict error and leaves the state
unchanged; an authorized call with a frozen (or absent) latest version and no
supplied label appends exactly one new version with status `working` and label
`V{n+1}` where `n` is the part's existing version count. -/
theorem createPartVersion_single_working_copy
    (db : DB) (u : Nat) (role : String) (partId : Nat)
    (lbl wp cn : Option String) (now : Nat) :
    (∀ pv db2, createPartVersion db u role partId lbl wp cn now = (.ok pv, db2) →
      getLatestPartVersion db partId = none ∨
      ∃ lv, getLatestPartVersion db partId = some lv ∧ lv.status = "frozen") ∧
    (∀ lv, canEditPart db u role partId = true →
      getLatestPartVersion db partId = some lv → lv.status ≠ "frozen" →
      createPartVersion db u role partId lbl wp cn now =
        (.error ⟨400, "Previous version must be frozen before creating a new version"⟩, db)) ∧
    (canEditPart db u role partId = true →
      (getLatestPartVersion db partId = none ∨
        ∃ lv, getLatestPartVersion db partId = some lv ∧ lv.status = "frozen") →
      lbl = none →
      ∃ pv, (createPartVersion db u role partId lbl wp cn now).1 = .ok pv ∧
        (createPartVersion db u role partId lbl wp cn now).2 =
          { db with part_versions := db.part_versions ++ [pv], pvSeq := db.pvSeq + 1 } ∧
        pv.status = "working" ∧
        pv.version_label =
          "V" ++ toString ((db.part_versions.filter (fun v => v.part_id == partId)).length + 1)) := by
  refine ⟨?_, ?_, ?_⟩
  · intro pv db2 h
    by_cases hcan : canEditPart db u role partId
    · cases hl : getLatestPartVersion db partId with
      | none => exact Or.inl rfl
      | some lv =>
        by_cases hst : lv.status = "frozen"
        · exact Or.inr ⟨lv, rfl, hst⟩
        · simp [createPartVersion, hcan, hl, hst] at h
    · simp [createPartVersion, hcan] at h
  · intro lv hcan hl hst
    simp [createPartVersion, hcan, hl, hst]
  · intro hcan hl hlbl
    subst hlbl
    rcases hl with hnone | ⟨lv, hsome, hst⟩
    · refine ⟨newPartVersion db partId none wp cn now, ?_, ?_, rfl, rfl⟩
      · simp [createPartVersion, hcan, hnone]
      · simp [createPartVersion, hcan, hnone]
    · refine ⟨newPartVersion db partId none wp cn now, ?_, ?_, rfl, rfl⟩
      · simp [createPartVersion, hcan, hsome, hst]
      · simp [createPartVersion, hcan, hsome, hst]

/-- C2 witness: on `dbOnePV` (part 1 owned by user 1, latest version working),
an authorized CreateVersion call is rejected with the conflict error and the
state is unchanged. -/
theorem createPartVersion_single_working_copy_witness :
    createPartVersion dbOnePV 1 "designer" 1 none none none 5 =
      (.error ⟨400, "Previous version must be frozen before creating a new version"⟩, dbOnePV) := by
  exact (createPartVersion_single_working_copy dbOnePV 1 "designer" 1 none none none 5).2.1
    ⟨1, 1, "V1", "working", none, none, none, none, none, 1⟩ (by decide) (by decide) (by decide)

/-- C6: for an admin caller, DeletePart fails (with the 400
referenced-by-assemblies error, state unchanged) exactly when some Composition
Edge references a version of the part; otherwise it succeeds and removes the
part row, its versions, its permission grants and its edit requests, leaving
all other rows in those tables intact. -/
theorem deletePart_conflict_iff_referenced (db : DB) (partId : Nat) :
    (deletePart db "admin" partId =
        (.error ⟨400, "Cannot delete: part is referenced by assemblies. Remove assembly references first."⟩, db) ↔
      ∃ ap ∈ db.assembly_parts, ∃ pv ∈ db.part_versions,
        pv.id = ap.part_version_id ∧ pv.part_id = partId) ∧
    ((¬ ∃ ap ∈ db.assembly_parts, ∃ pv ∈ db.part_versions,
        pv.id = ap.part_version_id ∧ pv.part_id = partId) →
      deletePart db "admin" partId =
        (.ok (), { db with
          part_permissions := db.part_permissions.filter (fun pp => pp.part_id != partId),
          edit_requests := db.edit_requests.filter (fun er => er.part_id != partId),
          part_versions := db.part_versions.filter (fun pv => pv.part_id != partId),
          parts := db.parts.filter (fun p => p.id != partId) }) ∧
      (∀ pv ∈ (deletePart db "admin" partId).2.part_versions, pv.part_id ≠ partId) ∧
      (∀ pp ∈ (deletePart db "admin" partId).2.part_permissions, pp.part_id ≠ partId) ∧
      (∀ er ∈ (deletePart db "admin" partId).2.edit_requests, er.part_id ≠ partId) ∧
      (∀ p ∈ (deletePart db "admin" partId).2.parts, p.id ≠ partId)) := by
  have hrole : (("admin" : String) != "admin") = false := by decide
  constructor
  · constructor
    · intro h
      by_cases href : (db.assembly_parts.any (fun ap =>
          db.part_versions.any (fun pv => pv.id == ap.part_version_id && pv.part_id == partId))) = true
      · simpa [List.any_eq_true, Bool.and_eq_true, beq_iff_eq] using href
      · simp [deletePart, hrole, href] at h
    · intro h
      have href : (db.assembly_parts.any (fun ap =>
          db.part_versions.any (fun pv => pv.id == ap.part_version_id && pv.part_id == partId))) = true := by
        simpa [List.any_eq_true, Bool.and_eq_true, beq_iff_eq] using h
      simp [deletePart, hrole, href]
  · intro h
    have href : (db.assembly_parts.any (fun ap =>
        db.part_versions.any (fun pv => pv.id == ap.part_version_id && pv.part_id == partId))) = false := by
      rw [Bool.eq_false_iff]
      intro hc
      exact h (by simpa [List.any_eq_true, Bool.and_eq_true, beq_iff_eq] using hc)
    refine ⟨by simp [deletePart, hrole, href], ?_, ?_, ?_, ?_⟩
    · intro pv hpv
      have hm : pv ∈ db.part_versions.filter (fun pv => pv.part_id != partId) := by
        simpa [deletePart, hrole, href] using hpv
      have := (List.mem_filter.mp hm).2
      simpa using this
    · intro pp hpp
      have hm : pp ∈ db.part_permissions.filter (fun pp => pp.part_id != partId) := by
        simpa [deletePart, hrole, href] using hpp
      have := (List.mem_filter.mp hm).2
      simpa using this
    · intro er her
      have hm : er ∈ db.edit_requests.filter (fun er => er.part_id != partId) := by
        simpa [deletePart, hrole, href] using her
      have := (List.mem_filter.mp hm).2
      simpa using this
    · intro p hp
      have hm : p ∈ db.parts.filter (fun p => p.id != partId) := by
        simpa [deletePart, hrole, href] using hp
      have := (List.mem_filter.mp hm).2
      simpa using this

/-- C6 witness: on `dbOnePV` (no Composition Edges at all), the admin delete of
part 1 succeeds and removes the part and its version, leaving the empty store
(with the sequence counters untouched). -/
theorem deletePart_conflict_iff_referenced_witness :
    deletePart dbOnePV "admin" 1 =
      (.ok (), { DB.empty with partSeq := 1, pvSeq := 1 }) := by
  have h := ((deletePart_conflict_iff_referenced dbOnePV 1).2 (by decide)).1
  exact h.trans (by decide)

/-- C10: bulk-freeze, called by an admin or approver with a non-empty id list,
answers with the number of rows it actually changed (those in the list whose
status was `working`) and applies `bulkFreezeRow` to every row; that row update
leaves every already-frozen version exactly as it was (unlike the singular
freeze endpoint it is guarded on prior status), leaves rows outside the id
list untouched, and stamps the listed working rows frozen with
`frozen_by`/`frozen_at` while touching none of their other fields. -/
theorem bulkFreeze_guards_on_working (db : DB) (u : Nat) (role : String)
    (vids : List Nat) (now : Nat) :
    (role = "admin" ∨ role = "approver" → vids ≠ [] →
      bulkFreezeParts db u role vids now =
        (.ok ((db.part_versions.filter (fun v => vids.contains v.id && v.status == "working")).length),
          { db with part_versions := db.part_versions.map (bulkFreezeRow u now vids) })) ∧
    (∀ v : PartVersion, v.status = "frozen" → bulkFreezeRow u now vids v = v) ∧
    (∀ v : PartVersion, ¬ v.id ∈ vids → bulkFreezeRow u now vids v = v) ∧
    (∀ v : PartVersion, v.id ∈ vids → v.status = "working" →
      (bulkFreezeRow u now vids v).status = "frozen" ∧
      (bulkFreezeRow u now vids v).frozen_by = some u ∧
      (bulkFreezeRow u now vids v).frozen_at = some now ∧
      (bulkFreezeRow u now vids v).storage_path = v.storage_path ∧
      (bulkFreezeRow u now vids v).working_path = v.working_path ∧
      (bulkFreezeRow u now vids v).version_label = v.version_label) := by
  refine ⟨?_, ?_, ?_, ?_⟩
  · intro hrole hne
    have hemp : vids.isEmpty = false := by
      cases vids with
      | nil => exact absurd rfl hne
      | cons a t => rfl
    rcases hrole with h | h <;> subst h <;> simp [bulkFreezeParts, hemp]
  · intro v h
    simp [bulkFreezeRow, h]
  · intro v h
    simp [bulkFreezeRow, h]
  · intro v hmem hst
    simp [bulkFreezeRow, hmem, hst]

/-- C10 witness: bulk-freezing the already-frozen version 1 of `dbFrozen`
succeeds, reports zero rows frozen, and leaves the store unchanged. -/
theorem bulkFreeze_guards_on_working_witness :
    bulkFreezeParts dbFrozen 9 "approver" [1] 7 = (.ok 0, dbFrozen) := by
  have h := (bulkFreeze_guards_on_working dbFrozen 9 "approver" [1] 7).1 (Or.inr rfl) (by decide)
  exact h.trans (by decide)

/-- C3 (amended): frozen provenance depends on the freeze path.  The direct
freeze row update stamps `status = frozen`, `frozen_by`/`frozen_at` and fills
`storage_path` from `working_path` via `COALESCE` (so it stays null when both
were null); the bulk-freeze row update stamps `frozen_by`/`frozen_at` but never
touches `storage_path`; the release-approval freeze leaves `frozen_by` and
`frozen_at` entirely unchanged, and a successful approval of a part release
request rewrites the version table with exactly that provenance-free update. -/
theorem freeze_paths_provenance (db : DB) (u : Nat) (role : String)
    (rid tvid now : Nat) (vids : List Nat) (partId versionId : Nat) :
    (∀ v : PartVersion, v.id = versionId → v.part_id = partId →
      (freezePartRow u now partId versionId v).status = "frozen" ∧
      (freezePartRow u now partId versionId v).frozen_by = some u ∧
      (freezePartRow u now partId versionId v).frozen_at = some now ∧
      (freezePartRow u now partId versionId v).storage_path =
        v.storage_path.orElse (fun _ => v.working_path)) ∧
    (∀ v : PartVersion, v.id ∈ vids → v.status = "working" →
      (bulkFreezeRow u now vids v).frozen_by = some u ∧
      (bulkFreezeRow u now vids v).frozen_at = some now ∧
      (bulkFreezeRow u now vids v).storage_path = v.storage_path) ∧
    (∀ v : PartVersion, (releaseFreezePartRow tvid v).frozen_by = v.frozen_by ∧
      (releaseFreezePartRow tvid v).frozen_at = v.frozen_at) ∧
    (∀ req, isApproverOrAdmin role = true →
      db.release_requests.find? (fun r => r.id == rid) = some req →
      req.item_type = "part" →
      (approveReleaseRequest db u role rid now).1 = .ok () ∧
      (approveReleaseRequest db u role rid now).2.part_versions =
        db.part_versions.map (releaseFreezePartRow req.item_version_id)) := by
  refine ⟨?_, ?_, ?_, ?_⟩
  · intro v h1 h2
    simp [freezePartRow, h1, h2]
  · intro v hmem hst
    simp [bulkFreezeRow, hmem, hst]
  · intro v
    by_cases h : (v.id == tvid) = true <;> simp [releaseFreezePartRow, h]
  · intro req hrole hfind hty
    have hty2 : (req.item_type == "part") = true := by simp [hty]
    constructor <;> simp [approveReleaseRequest, hrole, hfind, hty2]

/-- C3 witness: approving the pending release request of `dbRel` succeeds and
rewrites the part-version table with the provenance-free freeze update. -/
theorem freeze_paths_provenance_witness :
    (approveReleaseRequest dbRel 7 "approver" 1 5).1 = .ok () ∧
    (approveReleaseRequest dbRel 7 "approver" 1 5).2.part_versions =
      dbRel.part_versions.map (releaseFreezePartRow 1) := by
  exact (freeze_paths_provenance dbRel 7 "approver" 1 1 5 [] 1 1).2.2.2
    ⟨1, "part", 1, 9, "pending", none, none, none, 2⟩ (by decide) (by decide) (by decide)

/-- C4 (amended): release-request approval freezes the target version with the
same `status`/`storage_path` effect as a direct freeze by the same actor, but
unlike direct freeze it records no `frozen_by`/`frozen_at` — those fields keep
their prior values, while direct freeze overwrites them with the actor and
time; a successful approval of a part release request applies exactly the
provenance-free row update to the version table. -/
theorem approve_freeze_refinement (db : DB) (u : Nat) (role : String)
    (rid now partId tvid : Nat) :
    (∀ v : PartVersion, v.id = tvid → v.part_id = partId →
      (releaseFreezePartRow tvid v).status = (freezePartRow u now partId tvid v).status ∧
      (releaseFreezePartRow tvid v).storage_path = (freezePartRow u now partId tvid v).storage_path ∧
      (releaseFreezePartRow tvid v).working_path = v.working_path ∧
      (releaseFreezePartRow tvid v).frozen_by = v.frozen_by ∧
      (releaseFreezePartRow tvid v).frozen_at = v.frozen_at ∧
      (freezePartRow u now partId tvid v).frozen_by = some u ∧
      (freezePartRow u now partId tvid v).frozen_at = some now) ∧
    (∀ req, isApproverOrAdmin role = true →
      db.release_requests.find? (fun r => r.id == rid) = some req →
      req.item_type = "part" →
      (approveReleaseRequest db u role rid now).1 = .ok () ∧
      (approveReleaseRequest db u role rid now).2.part_versions =
        db.part_versions.map (releaseFreezePartRow req.item_version_id)) := by
  constructor
  · intro v h1 h2
    simp [releaseFreezePartRow, freezePartRow, h1, h2]
  · intro req hrole hfind hty
    have hty2 : (req.item_type == "part") = true := by simp [hty]
    constructor <;> simp [approveReleaseRequest, hrole, hfind, hty2]

/-- C4 witness: on the working version of `dbRel`, the approval-path row update
keeps `frozen_by` null while the direct-freeze row update by user 7 stamps it,
and both produce the same `status`. -/
theorem approve_freeze_refinement_witness :
    (releaseFreezePartRow 1 ⟨1, 1, "V1", "working", none, some "wp", none, none, none, 1⟩).frozen_by = none ∧
    (freezePartRow 7 5 1 1 ⟨1, 1, "V1", "working", none, some "wp", none, none, none, 1⟩).frozen_by = some 7 ∧
    (releaseFreezePartRow 1 ⟨1, 1, "V1", "working", none, some "wp", none, none, none, 1⟩).status =
      (freezePartRow 7 5 1 1 ⟨1, 1, "V1", "working", none, some "wp", none, none, none, 1⟩).status := by
  have h := (approve_freeze_refinement dbRel 7 "approver" 1 5 1 1).1
    ⟨1, 1, "V1", "working", none, some "wp", none, none, none, 1⟩ rfl rfl
  exact ⟨h.2.2.2.1, h.2.2.2.2.2.1, h.1⟩

/-- C7 (amended): re-freezing is last-write-wins.  Whenever the caller is an
approver or admin and a version matching the stated id and parent exists —
frozen or not — the direct freeze endpoints succeed (they never reject based
on prior status) and rewrite the table with the freeze row update, which
overwrites `frozen_by`/`frozen_at` with the current actor and time. -/
theorem refreeze_last_write_wins (db : DB) (u : Nat) (role : String)
    (partId versionId aid avid now : Nat) :
    (isApproverOrAdmin role = true →
      (∃ v ∈ db.part_versions, v.id = versionId ∧ v.part_id = partId) →
      (freezePartVersion db u role partId versionId now).1 = .ok () ∧
      (freezePartVersion db u role partId versionId now).2.part_versions =
        db.part_versions.map (freezePartRow u now partId versionId)) ∧
    (∀ v : PartVersion, v.id = versionId → v.part_id = partId →
      (freezePartRow u now partId versionId v).frozen_by = some u ∧
      (freezePartRow u now partId versionId v).frozen_at = some now ∧
      (freezePartRow u now partId versionId v).status = "frozen") ∧
    (isApproverOrAdmin role = true →
      (∃ v ∈ db.assembly_versions, v.id = avid ∧ v.assembly_id = aid) →
      (freezeAssemblyVersion db u role aid avid now).1 = .ok () ∧
      (freezeAssemblyVersion db u role aid avid now).2.assembly_versions =
        db.assembly_versions.map (freezeAssemblyRow u now aid avid)) ∧
    (∀ v : AssemblyVersion, v.id = avid → v.assembly_id = aid →
      (freezeAssemblyRow u now aid avid v).frozen_by = some u ∧
      (freezeAssemblyRow u now aid avid v).frozen_at = some now ∧
      (freezeAssemblyRow u now aid avid v).status = "frozen") := by
  refine ⟨?_, ?_, ?_, ?_⟩
  · intro hrole hex
    obtain ⟨v, hv, h1, h2⟩ := hex
    have hm : v ∈ db.part_versions.filter (fun v => v.id == versionId && v.part_id == partId) :=
      List.mem_filter.mpr ⟨hv, by simp [h1, h2]⟩
    have hne : db.part_versions.filter (fun v => v.id == versionId && v.part_id == partId) ≠ [] :=
      List.ne_nil_of_mem hm
    have hch : (((db.part_versions.filter (fun v => v.id == versionId && v.part_id == partId)).length) == 0) = false := by
      rw [Bool.eq_false_iff]
      intro hc
      exact hne (List.length_eq_zero.mp (by simpa using hc))
    constructor <;> simp [freezePartVersion, hrole, hch]
  · intro v h1 h2
    simp [freezePartRow, h1, h2]
  · intro hrole hex
    obtain ⟨v, hv, h1, h2⟩ := hex
    have hm : v ∈ db.assembly_versions.filter (fun v => v.id == avid && v.assembly_id == aid) :=
      List.mem_filter.mpr ⟨hv, by simp [h1, h2]⟩
    have hne : db.assembly_versions.filter (fun v => v.id == avid && v.assembly_id == aid) ≠ [] :=
      List.ne_nil_of_mem hm
    have hch : (((db.assembly_versions.filter (fun v => v.id == avid && v.assembly_id == aid)).length) == 0) = false := by
      rw [Bool.eq_false_iff]
      intro hc
      exact hne (List.length_eq_zero.mp (by simpa using hc))
    constructor <;> simp [freezeAssemblyVersion, hrole, hch]
  · intro v h1 h2
    simp [freezeAssemblyRow, h1, h2]

/-- C7 witness: re-freezing the already-frozen version 1 of `dbFrozen` as user
2 at time 20 succeeds and rewrites the table with the overwriting row update. -/
theorem refreeze_last_write_wins_witness :
    (freezePartVersion dbFrozen 2 "approver" 1 1 20).1 = .ok () ∧
    (freezePartVersion dbFrozen 2 "approver" 1 1 20).2.part_versions =
      dbFrozen.part_versions.map (freezePartRow 2 20 1 1) := by
  exact (refreeze_last_write_wins dbFrozen 2 "approver" 1 1 1 1 20).1 (by decide)
    ⟨⟨1, 1, "V1", "frozen", some "sp", some "wp", none, some 1, some 10, 1⟩, by decide, rfl, rfl⟩

/-- C8 (amended): request creation performs no existence check.  An edit
request by any designer, and a release request with a valid `item_type`,
always succeed and append a pending request row carrying whatever part or
version id was supplied, whether or not it resolves (foreign keys are
unenforced); only the role gate (edit requests) and the required-field /
`item_type` validation (release requests) stand between the caller and the
insert. -/
theorem request_creation_inserts_unconditionally (db : DB) (u : Nat)
    (partId vid : Nat) (reason : Option String) (ity : String) (now : Nat) :
    (createEditRequest db u "designer" partId reason now =
      (.ok ⟨db.erSeq + 1, partId, u, "pending", reason, none, none, now⟩,
        { db with
          edit_requests := db.edit_requests ++ [⟨db.erSeq + 1, partId, u, "pending", reason, none, none, now⟩],
          erSeq := db.erSeq + 1 })) ∧
    (ity = "part" ∨ ity = "assembly" →
      createReleaseRequest db u (some ity) (some vid) reason now =
      (.ok ⟨db.rrSeq + 1, ity, vid, u, "pending", reason, none, none, now⟩,
        { db with
          release_requests := db.release_requests ++ [⟨db.rrSeq + 1, ity, vid, u, "pending", reason, none, none, now⟩],
          rrSeq := db.rrSeq + 1 })) := by
  constructor
  · rfl
  · intro hty
    rcases hty with h | h <;> subst h <;> rfl

/-- C8 witness: on the empty store, a release request for the non-existent
version 55 succeeds and appends the dangling pending row. -/
theorem request_creation_inserts_unconditionally_witness :
    createReleaseRequest DB.empty 2 (some "part") (some 55) none 1 =
      (.ok ⟨1, "part", 55, 2, "pending", none, none, none, 1⟩,
        { DB.empty with
          release_requests := [⟨1, "part", 55, 2, "pending", none, none, none, 1⟩],
          rrSeq := 1 }) := by
  have h := (request_creation_inserts_unconditionally DB.empty 2 99 55 none "part" 1).2 (Or.inl rfl)
  exact h.trans (by decide)

/-- Splitting the compare row set on two distinct target ids. -/
lemma filter_pair_length (l : List PartVersion) (v1 v2 pid : Nat) (hne : v1 ≠ v2) :
    (l.filter (fun v => (v.id == v1 || v.id == v2) && v.part_id == pid)).length =
      (l.filter (fun v => v.id == v1 && v.part_id == pid)).length +
      (l.filter (fun v => v.id == v2 && v.part_id == pid)).length := by
  have hne2 : v2 ≠ v1 := Ne.symm hne
  induction l with
  | nil => simp
  | cons a t ih =>
    by_cases h1 : a.id = v1
    · have h2 : ¬ a.id = v2 := by rw [h1]; exact hne
      by_cases hp : a.part_id = pid <;>
        simp [List.filter_cons, h1, h2, hp, hne, hne2, ih] <;> omega
    · by_cases h2 : a.id = v2 <;> by_cases hp : a.part_id = pid <;>
        simp [List.filter_cons, h1, h2, hp, hne, hne2, ih] <;> omega

/-- With unique stored ids, at most one row matches a given id and parent. -/
lemma filter_single_length_le_one (l : List PartVersion) (x pid : Nat)
    (hnd : (l.map (fun v => v.id)).Nodup) :
    (l.filter (fun v => v.id == x && v.part_id == pid)).length ≤ 1 := by
  induction l with
  | nil => simp
  | cons a t ih =>
    rw [List.map_cons, List.nodup_cons] at hnd
    by_cases hax : a.id = x
    · by_cases hp : a.part_id = pid
      · have ht : t.filter (fun v => v.id == x && v.part_id == pid) = [] := by
          rw [List.filter_eq_nil_iff]
          intro v hv hb
          have hvx : v.id = x := by
            simp [Bool.and_eq_true, beq_iff_eq] at hb
            exact hb.1
          exact hnd.1 (by rw [← hax, ← hvx] at *; exact List.mem_map_of_mem _ hv)
        simp [List.filter_cons, hax, hp, ht]
      · simp only [List.filter_cons]
        have hb : (a.id == x && a.part_id == pid) = false := by simp [hax, hp]
        simp [hb]
        exact ih hnd.2
    · simp only [List.filter_cons]
      have hb : (a.id == x && a.part_id == pid) = false := by simp [hax]
      simp [hb]
      exact ih hnd.2

/-- C9 (amended): with unique stored version ids, Compare fails with the 404
error unless both requested ids exist, belong to the part, and are distinct;
when they are distinct and both resolve it answers with the two full version
records; when the two ids are equal it fails with 404 even though the id
resolves, because the deduplicating `IN (?, ?)` lookup yields a single row. -/
theorem compare_resolves_distinct (db : DB) (partId v1 v2 : Nat)
    (hnd : (db.part_versions.map (fun v => v.id)).Nodup) :
    (v1 = v2 → compareVersions db partId v1 v2 = .error ⟨404, "One or both versions not found"⟩) ∧
    ((¬ ∃ va ∈ db.part_versions, va.id = v1 ∧ va.part_id = partId) →
      compareVersions db partId v1 v2 = .error ⟨404, "One or both versions not found"⟩) ∧
    ((¬ ∃ vb ∈ db.part_versions, vb.id = v2 ∧ vb.part_id = partId) →
      compareVersions db partId v1 v2 = .error ⟨404, "One or both versions not found"⟩) ∧
    (v1 ≠ v2 →
      (∃ va ∈ db.part_versions, va.id = v1 ∧ va.part_id = partId) →
      (∃ vb ∈ db.part_versions, vb.id = v2 ∧ vb.part_id = partId) →
      ∃ va vb, compareVersions db partId v1 v2 = .ok (some va, some vb) ∧
        va ∈ db.part_versions ∧ va.id = v1 ∧ va.part_id = partId ∧
        vb ∈ db.part_versions ∧ vb.id = v2 ∧ vb.part_id = partId) := by
  have herr : ∀ (w1 w2 : Nat),
      (db.part_versions.filter (fun pv => (pv.id == w1 || pv.id == w2) && pv.part_id == partId)).length ≠ 2 →
      compareVersions db partId w1 w2 = .error ⟨404, "One or both versions not found"⟩ := by
    intro w1 w2 hl
    have hb : (((db.part_versions.filter (fun pv => (pv.id == w1 || pv.id == w2) && pv.part_id == partId)).length) != 2) = true := by
      simpa using hl
    simp [compareVersions, hb]
  have hsame : ∀ (w : Nat),
      db.part_versions.filter (fun pv => (pv.id == w || pv.id == w) && pv.part_id == partId) =
        db.part_versions.filter (fun pv => pv.id == w && pv.part_id == partId) := by
    intro w
    apply List.filter_congr
    intro v _
    simp
  have hempty : ∀ (w : Nat), (¬ ∃ va ∈ db.part_versions, va.id = w ∧ va.part_id = partId) →
      db.part_versions.filter (fun pv => pv.id == w && pv.part_id == partId) = [] := by
    intro w hno
    rw [List.filter_eq_nil_iff]
    intro v hv hb
    simp only [Bool.and_eq_true, beq_iff_eq] at hb
    exact hno ⟨v, hv, hb.1, hb.2⟩
  refine ⟨?_, ?_, ?_, ?_⟩
  · intro h
    subst h
    apply herr
    rw [hsame]
    have := filter_single_length_le_one db.part_versions v1 partId hnd
    omega
  · intro hno
    by_cases h12 : v1 = v2
    · subst h12
      apply herr
      rw [hsame, hempty v1 hno]
      simp
    · apply herr
      rw [filter_pair_length db.part_versions v1 v2 partId h12, hempty v1 hno]
      have := filter_single_length_le_one db.part_versions v2 partId hnd
      simp
      omega
  · intro hno
    by_cases h12 : v1 = v2
    · subst h12
      apply herr
      rw [hsame, hempty v1 hno]
      simp
    · apply herr
      rw [filter_pair_length db.part_versions v1 v2 partId h12, hempty v2 hno]
      have := filter_single_length_le_one db.part_versions v1 partId hnd
      simp
      omega
  · intro h12 hex1 hex2
    obtain ⟨va0, hva0, hid1, hp1⟩ := hex1
    obtain ⟨vb0, hvb0, hid2, hp2⟩ := hex2
    have hm1 : va0 ∈ db.part_versions.filter (fun v => v.id == v1 && v.part_id == partId) :=
      List.mem_filter.mpr ⟨hva0, by simp [hid1, hp1]⟩
    have hm2 : vb0 ∈ db.part_versions.filter (fun v => v.id == v2 && v.part_id == partId) :=
      List.mem_filter.mpr ⟨hvb0, by simp [hid2, hp2]⟩
    have hl1 : (db.part_versions.filter (fun v => v.id == v1 && v.part_id == partId)).length = 1 := by
      have hle := filter_single_length_le_one db.part_versions v1 partId hnd
      have hpos := List.length_pos.mpr (List.ne_nil_of_mem hm1)
      omega
    have hl2 : (db.part_versions.filter (fun v => v.id == v2 && v.part_id == partId)).length = 1 := by
      have hle := filter_single_length_le_one db.part_versions v2 partId hnd
      have hpos := List.length_pos.mpr (List.ne_nil_of_mem hm2)
      omega
    have hrows : (db.part_versions.filter (fun pv => (pv.id == v1 || pv.id == v2) && pv.part_id == partId)).length = 2 := by
      rw [filter_pair_length db.part_versions v1 v2 partId h12, hl1, hl2]
    have hb : (((db.part_versions.filter (fun pv => (pv.id == v1 || pv.id == v2) && pv.part_id == partId)).length) != 2) = false := by
      simp [hrows]
    have hrm1 : va0 ∈ db.part_versions.filter (fun pv => (pv.id == v1 || pv.id == v2) && pv.part_id == partId) :=
      List.mem_filter.mpr ⟨hva0, by simp [hid1, hp1]⟩
    have hrm2 : vb0 ∈ db.part_versions.filter (fun pv => (pv.id == v1 || pv.id == v2) && pv.part_id == partId) :=
      List.mem_filter.mpr ⟨hvb0, by simp [hid2, hp2]⟩
    cases hf1 : (db.part_versions.filter (fun pv => (pv.id == v1 || pv.id == v2) && pv.part_id == partId)).find? (fun r => r.id == v1) with
    | none =>
      exact absurd (by simp [hid1] : (va0.id == v1) = true)
        (by simpa using List.find?_eq_none.mp hf1 va0 hrm1)
    | some a =>
      cases hf2 : (db.part_versions.filter (fun pv => (pv.id == v1 || pv.id == v2) && pv.part_id == partId)).find? (fun r => r.id == v2) with
      | none =>
        exact absurd (by simp [hid2] : (vb0.id == v2) = true)
          (by simpa using List.find?_eq_none.mp hf2 vb0 hrm2)
      | some b =>
        have ham : a ∈ db.part_versions.filter (fun pv => (pv.id == v1 || pv.id == v2) && pv.part_id == partId) :=
          List.mem_of_find?_eq_some hf1
        have hbm : b ∈ db.part_versions.filter (fun pv => (pv.id == v1 || pv.id == v2) && pv.part_id == partId) :=
          List.mem_of_find?_eq_some hf2
        have haid : a.id = v1 := by simpa using List.find?_some hf1
        have hbid : b.id = v2 := by simpa using List.find?_some hf2
        have hap : a.part_id = partId := by
          have hx := (List.mem_filter.mp ham).2
          simp only [Bool.and_eq_true, beq_iff_eq] at hx
          exact hx.2
        have hbp : b.part_id = partId := by
          have hx := (List.mem_filter.mp hbm).2
          simp only [Bool.and_eq_true, beq_iff_eq] at hx
          exact hx.2
        refine ⟨a, b, ?_, (List.mem_filter.mp ham).1, haid, hap,
          (List.mem_filter.mp hbm).1, hbid, hbp⟩
        simp [compareVersions, hb, hf1, hf2]

/-- C9 witness: comparing the non-existent versions 2 and 3 of part 1 in
`dbOnePV` fails with the 404 error. -/
theorem compare_resolves_distinct_witness :
    compareVersions dbOnePV 1 2 3 = .error ⟨404, "One or both versions not found"⟩ := by
  exact (compare_resolves_distinct dbOnePV 1 2 3 (by decide)).2.1 (by decide)

end PLM
